import Mathlib

set_option maxHeartbeats 1000000

/-!
Verification development for the VoiceScribe webhook pipeline
(routes/webhook.js, services/whisper.js, services/whatsapp.js,
services/storage.js, routes/api.js).

The JavaScript source is shallowly embedded: remote calls and timers are
replaced by explicit environments (functions from attempt number to the
outcome the remote side produces), and every function returns a trace of
the externally visible effects (download attempts, sleeps, user notices,
API attempts, persisted records) next to its result.  JS `||` truthiness
on strings and numbers is modelled explicitly, as are the substring
checks the Whisper client uses to classify errors as retryable.
-/

namespace VoiceScribe

/-! ### JavaScript string / truthiness helpers -/

/-- JavaScript `hay.includes(needle)` on explicit character lists. -/
def charsContains : List Char → List Char → Bool
  | [], needle => needle.isEmpty
  | c :: t, needle => needle.isPrefixOf (c :: t) || charsContains t needle

/-- JavaScript `hay.includes(needle)`. -/
def strContains (hay needle : String) : Bool :=
  charsContains hay.toList needle.toList

/-- JavaScript `x || dflt` for a possibly absent string: `null`, `undefined`
and the empty string are falsy. -/
def jsOrStr (x : Option String) (dflt : String) : String :=
  match x with
  | none => dflt
  | some s => if s = "" then dflt else s

/-- JavaScript truthiness of a possibly absent number: `null`/`undefined`
and `0` are falsy. -/
def durTruthy : Option Nat → Bool
  | none => false
  | some d => d != 0

/-- JavaScript `a || b || null` on possibly absent numbers
(`transcription.duration || message.audio.duration || null`). -/
def jsDurChain (a b : Option Nat) : Option Nat :=
  if durTruthy a then a else if durTruthy b then b else none

/-- Characters of `mimeType.split(';')[0]`: everything before the first `;`. -/
def takeUntilSemicolon : List Char → List Char
  | [] => []
  | c :: t => if c = ';' then [] else c :: takeUntilSemicolon t

/-- JavaScript `String.prototype.trim` on a character list. -/
def trimChars (l : List Char) : List Char :=
  ((l.dropWhile Char.isWhitespace).reverse.dropWhile Char.isWhitespace).reverse

/-- `mimeType.split(';')[0].trim()` from services/whisper.js. -/
def baseMimeOf (mimeType : String) : String :=
  ⟨trimChars (takeUntilSemicolon mimeType.toList)⟩

/-- JavaScript `s.split(',')` (keeps empty segments; `''.split(',')` is `['']`). -/
def splitComma : List Char → List (List Char)
  | [] => [[]]
  | c :: t =>
    if c = ',' then [] :: splitComma t
    else
      match splitComma t with
      | [] => [[c]]
      | seg :: rest => (c :: seg) :: rest

/-! ### Whisper client (services/whisper.js) -/

/-- `MIME_EXT_MAP` from services/whisper.js. -/
def mimeExtMap : String → Option String
  | "audio/ogg" => some "ogg"
  | "audio/mpeg" => some "mp3"
  | "audio/mp4" => some "m4a"
  | "audio/mp4a-latm" => some "m4a"
  | "audio/wav" => some "wav"
  | "audio/x-wav" => some "wav"
  | "audio/webm" => some "webm"
  | "audio/aac" => some "aac"
  | "audio/flac" => some "flac"
  | "audio/x-m4a" => some "m4a"
  | _ => none

/-- `MAX_FILE_SIZE = 25 * 1024 * 1024` (25 MiB, the Whisper limit). -/
def MAX_FILE_SIZE : Nat := 25 * 1024 * 1024

/-- Raw JSON body of a successful transcription API response: the fields
`transcribeAudio` reads (`text`, `language`, `duration`, `segments`).
Durations are modelled as naturals (whole seconds suffice for every claim;
only presence and zero-ness matter). -/
structure ApiResult where
  text : String
  language : Option String
  duration : Option Nat
  segments : Option (List String)
  deriving DecidableEq

/-- Outcome of one attempt of the remote transcription call:
a parsed success body, a non-ok HTTP response (status and body text),
or a transport-level fetch failure (Node throws `TypeError: fetch failed`). -/
inductive ApiOutcome where
  | ok (r : ApiResult)
  | httpError (status : Nat) (body : String)
  | fetchFailed
  deriving DecidableEq

/-- The error message `transcribeAudio` throws for a non-ok response:
`Whisper API error {status}: {body}` for a non-429 4xx (and any other
status below 500), `Whisper API {status}: {body}` otherwise. -/
def mkFailMsg (status : Nat) (body : String) : String :=
  if status < 500 && status != 429 then
    "Whisper API error " ++ toString status ++ ": " ++ body
  else
    "Whisper API " ++ toString status ++ ": " ++ body

/-- One attempt of the `try` block body: a success returns the parsed
result, any failure is the thrown error's message. -/
def attemptResult : ApiOutcome → Except String ApiResult
  | .ok r => .ok r
  | .httpError s b => .error (mkFailMsg s b)
  | .fetchFailed => .error "fetch failed"

/-- `isRetryable` from the catch block of `transcribeAudio`: a substring
check on the whole error message. -/
def isRetryable (msg : String) : Bool :=
  strContains msg "429" || strContains msg "500" || strContains msg "502" ||
    strContains msg "503" || strContains msg "fetch"

/-- The object `transcribeAudio` returns on success. -/
structure TranscribeResult where
  text : String
  language : String
  duration : Option Nat
  segments : List String
  deriving DecidableEq

/-- Normalization applied to a successful response body:
`result.language || 'unknown'`, `result.duration || null`,
`result.segments || []` (arrays are truthy even when empty). -/
def normalize (r : ApiResult) : TranscribeResult :=
  { text := r.text
    language := jsOrStr r.language "unknown"
    duration := if durTruthy r.duration then r.duration else none
    segments := r.segments.getD [] }

/-- Request parameters of one API attempt (file extension chosen from the
mime type, and the `language` form field when one is sent). -/
structure ApiRequest where
  ext : String
  language : Option String
  deriving DecidableEq

/-- Result of `transcribeAudio`: a returned value, a thrown `Error`
(carrying its message), or `throw lastError` with `lastError` still
`null` (the loop never ran). -/
inductive TOutcome where
  | success (r : TranscribeResult)
  | throwErr (msg : String)
  | throwNull
  deriving DecidableEq

/-- Trace of one `transcribeAudio` call: one entry in `requests` per API
attempt, one entry in `sleeps` (milliseconds) per backoff wait, and the
final outcome. -/
structure TTrace where
  requests : List ApiRequest
  sleeps : List Nat
  outcome : TOutcome
  deriving DecidableEq

/-- The retry loop `for (let attempt = 1; attempt <= maxRetries; attempt++)`.
`fuel` counts the remaining loop iterations, `maxRetries + 1 - attempt`;
the caller starts it at `attempt = 1`, `fuel = maxRetries.toNat`, so
`fuel = 0` is exactly the loop condition `attempt <= maxRetries` failing,
which falls through to `throw lastError`.  A retryable failure with
attempts remaining sleeps `Math.pow(2, attempt) * 1000` ms; otherwise the
loop breaks and throws the last error. -/
def transcribeLoop (api : Nat → ApiOutcome) (req : ApiRequest) (maxRetries : Int) :
    Nat → Nat → Option String → TTrace
  | _attempt, 0, lastError =>
    ⟨[], [], match lastError with | some m => .throwErr m | none => .throwNull⟩
  | attempt, fuel + 1, _lastError =>
    match attemptResult (api attempt) with
    | .ok raw => ⟨[req], [], .success (normalize raw)⟩
    | .error msg =>
      if (attempt : Int) < maxRetries && isRetryable msg then
        let rest := transcribeLoop api req maxRetries (attempt + 1) fuel (some msg)
        ⟨req :: rest.requests, 2 ^ attempt * 1000 :: rest.sleeps, rest.outcome⟩
      else
        ⟨[req], [], .throwErr msg⟩

/-- `language && language !== 'auto'`: the `language` form field is sent
only for a truthy language different from `'auto'`. -/
def langFieldOf (language : Option String) : Option String :=
  match language with
  | some l => if l != "" && l != "auto" then some l else none
  | none => none

/-- The size-exceeded error message; `Math.round(len / 1024 / 1024)` is
modelled as exact half-up rounding `(len + 2^19) / 2^20`. -/
def sizeErrMsg (len : Nat) : String :=
  "Fișierul audio este prea mare (" ++ toString ((len + 524288) / 1048576) ++
    "MB). Maximum: 25MB."

/-- `transcribeAudio(audioBuffer, mimeType, { maxRetries, language })` from
services/whisper.js, over an environment `api` giving the outcome of each
attempt.  The buffer is represented by its length (the only field the
control flow reads). -/
def transcribeAudio (audioLen : Nat) (mimeType : String) (language : Option String)
    (maxRetries : Int) (api : Nat → ApiOutcome) : TTrace :=
  if audioLen > MAX_FILE_SIZE then
    ⟨[], [], .throwErr (sizeErrMsg audioLen)⟩
  else
    transcribeLoop api
      ⟨(mimeExtMap (baseMimeOf mimeType)).getD "ogg", langFieldOf language⟩
      maxRetries 1 maxRetries.toNat none

/-! ### Audio message handler (handleAudioMessage in routes/webhook.js) -/

/-- The `message.audio` payload fields the handler reads. -/
structure AudioMessage where
  audioId : String
  mimeType : Option String
  duration : Option Nat
  deriving DecidableEq

/-- The argument object of `saveTranscription` built by the handler
(and by the manual-upload route). -/
structure SavedRecord where
  sender : String
  senderName : String
  timestamp : Nat
  transcription : String
  language : String
  duration : Option Nat
  source : String
  deriving DecidableEq

/-- Externally visible effects of one `handleAudioMessage` run, in order.
Send events carry whether the remote send succeeded (`ok`); sends marked
best-effort in the source swallow a `false` outcome. -/
inductive HEvent where
  | downloadAttempt (n : Nat) (ok : Bool)
  | sleepMs (ms : Nat)
  | downloadFailNotice (ok : Bool)
  | tooLargeNotice (ok : Bool)
  | transcribeCall
  | savedRecord (r : SavedRecord)
  | autoReplyAttempt (ok : Bool)
  | templateAttempt (dest : String) (ok : Bool)
  | plainAttempt (dest : String) (ok : Bool)
  deriving DecidableEq

/-- A thrown JavaScript value: an `Error` (carrying its message) or the
literal `null` (from `throw lastError` with `lastError` never assigned). -/
inductive JsError where
  | err (msg : String)
  | nullThrown
  deriving DecidableEq

instance {ε α : Type} [DecidableEq ε] [DecidableEq α] : DecidableEq (Except ε α) :=
  fun a b =>
    match a, b with
    | .ok x, .ok y =>
      if h : x = y then isTrue (by rw [h]) else isFalse (by simp [h])
    | .ok _, .error _ => isFalse (by simp)
    | .error _, .ok _ => isFalse (by simp)
    | .error e, .error f =>
      if h : e = f then isTrue (by rw [h]) else isFalse (by simp [h])

/-- Environment of one `handleAudioMessage` run: outcomes of the remote
calls and the settings the handler consults.  `download n` is the result
of the n-th `downloadWhatsAppMedia` call (`none` = it threw), giving the
buffer's length; `api` drives the Whisper attempts; `getSetting` is the
storage settings lookup; `forwardNumbers` is `process.env.FORWARD_TO_NUMBERS`. -/
structure HandlerEnv where
  download : Nat → Option Nat
  api : Nat → ApiOutcome
  getSetting : String → Option String
  forwardNumbers : Option String
  noticeOk : Bool
  replyOk : Bool
  templateOk : String → Bool
  plainOk : String → Bool

/-- Events of the forward loop (step 5): for each configured number other
than the sender, try the template send; on its failure fall back to a
plain-text send; a plain-text failure is logged and the loop continues. -/
def forwardEvents (env : HandlerEnv) (senderPhone : String) : List String → List HEvent
  | [] => []
  | n :: rest =>
    (if n ≠ senderPhone then
      (if env.templateOk n then [.templateAttempt n true]
       else .templateAttempt n false ::
         (if env.plainOk n then [.plainAttempt n true] else [.plainAttempt n false]))
     else []) ++ forwardEvents env senderPhone rest

/-- `forwardNumbers.split(',').map(n => n.trim()).filter(Boolean)` guarded
by `if (forwardNumbers)` (absent or empty string is falsy). -/
def forwardNumbersList (s : Option String) : List String :=
  match s with
  | none => []
  | some str =>
    if str = "" then []
    else ((splitComma str.toList).map fun l => (⟨trimChars l⟩ : String)).filter (· ≠ "")

/-- The `transcribeAudio` call the handler makes (step 2): default
`maxRetries = 3`; language forced from the `default_language` setting
unless that setting is `'auto'` (`defaultLang !== 'auto' ? defaultLang :
undefined`, with a missing setting passing `null`, which is falsy). -/
def handlerTranscribe (env : HandlerEnv) (msg : AudioMessage) (buf : Nat) : TTrace :=
  transcribeAudio buf (jsOrStr msg.mimeType "audio/ogg")
    (if env.getSetting "default_language" = some "auto" then none
     else env.getSetting "default_language") 3 env.api

/-- The record object the handler passes to `saveTranscription` (step 3). -/
def savedRowOf (msg : AudioMessage) (senderPhone senderName : String)
    (timestamp : Nat) (r : TranscribeResult) : SavedRecord :=
  { sender := senderPhone
    senderName := senderName
    timestamp := timestamp / 1000
    transcription := r.text
    language := r.language
    duration := jsDurChain r.duration msg.duration
    source := "whatsapp" }

/-- Steps 2–5 of `handleAudioMessage`, entered with a downloaded buffer of
`buf` bytes and the events `pre` already produced by step 1.  The size
guard aborts with a best-effort notice; a transcription failure
propagates; on success the record is saved, then the auto-reply is sent
when `auto_reply === 'true'` (its failure propagates), then forwards run. -/
def afterDownload (env : HandlerEnv) (msg : AudioMessage)
    (senderPhone senderName : String) (timestamp : Nat) (pre : List HEvent)
    (buf : Nat) : List HEvent × Except JsError Unit :=
  if buf > MAX_FILE_SIZE then
    (pre ++ [.tooLargeNotice env.noticeOk], .ok ())
  else
    let t := handlerTranscribe env msg buf
    let evs := pre ++ [.transcribeCall] ++ t.sleeps.map .sleepMs
    match t.outcome with
    | .throwErr m => (evs, .error (.err m))
    | .throwNull => (evs, .error .nullThrown)
    | .success r =>
      let row := savedRowOf msg senderPhone senderName timestamp r
      let evs := evs ++ [.savedRecord row]
      if env.getSetting "auto_reply" = some "true" then
        if env.replyOk then
          (evs ++ [.autoReplyAttempt true] ++
            forwardEvents env senderPhone (forwardNumbersList env.forwardNumbers), .ok ())
        else
          (evs ++ [.autoReplyAttempt false],
           .error (.err "Failed to send WhatsApp message"))
      else
        (evs ++ forwardEvents env senderPhone (forwardNumbersList env.forwardNumbers),
         .ok ())

/-- `handleAudioMessage(message, senderPhone, senderName, timestamp)`:
step 1 downloads the audio; on failure it sleeps 2000 ms and retries
exactly once; if the retry also fails it sends a best-effort failure
notice to the sender and returns (no further step runs). -/
def handleAudioMessage (env : HandlerEnv) (msg : AudioMessage)
    (senderPhone senderName : String) (timestamp : Nat) :
    List HEvent × Except JsError Unit :=
  match env.download 1 with
  | some buf =>
    afterDownload env msg senderPhone senderName timestamp
      [.downloadAttempt 1 true] buf
  | none =>
    match env.download 2 with
    | some buf =>
      afterDownload env msg senderPhone senderName timestamp
        [.downloadAttempt 1 false, .sleepMs 2000, .downloadAttempt 2 true] buf
    | none =>
      ([.downloadAttempt 1 false, .sleepMs 2000, .downloadAttempt 2 false,
        .downloadFailNotice env.noticeOk], .ok ())

/-- The buffer length the handler ends up with, if any download succeeded:
the first attempt's result, else the retry's. -/
def obtainedBuffer (env : HandlerEnv) : Option Nat :=
  match env.download 1 with
  | some l => some l
  | none => env.download 2

/-- The record payload of a `savedRecord` event, if any. -/
def savedRecordOf : HEvent → Option SavedRecord
  | .savedRecord r => some r
  | _ => none

def isTranscribeCall : HEvent → Bool
  | .transcribeCall => true
  | _ => false

def isTooLargeNotice : HEvent → Bool
  | .tooLargeNotice _ => true
  | _ => false

def isDownloadFailNotice : HEvent → Bool
  | .downloadFailNotice _ => true
  | _ => false

def isDownloadAttempt : HEvent → Bool
  | .downloadAttempt _ _ => true
  | _ => false

/-- Records passed to `saveTranscription` within a trace. -/
def savedRecords (evs : List HEvent) : List SavedRecord :=
  evs.filterMap savedRecordOf

/-- Number of `transcribeAudio` invocations in a trace. -/
def transcribeCalls (evs : List HEvent) : Nat :=
  (evs.filter isTranscribeCall).length

/-- Number of too-large notices sent in a trace. -/
def tooLargeNotices (evs : List HEvent) : Nat :=
  (evs.filter isTooLargeNotice).length

/-- Number of download-failure notices sent in a trace. -/
def downloadFailNotices (evs : List HEvent) : Nat :=
  (evs.filter isDownloadFailNotice).length

/-- Number of media download attempts in a trace. -/
def downloadAttempts (evs : List HEvent) : Nat :=
  (evs.filter isDownloadAttempt).length

/-! ### Sequential message queue (routes/webhook.js) -/

/-- A parsed inbound WhatsApp message, as the queue stores it. -/
inductive WAMessage where
  | audio (a : AudioMessage)
  | text (body : String)
  | other
  deriving DecidableEq

/-- One entry of `messageQueue`: `{ message, senderPhone, senderName }`. -/
structure QueueItem where
  message : WAMessage
  senderPhone : String
  senderName : String
  deriving DecidableEq

/-- The `while (messageQueue.length > 0)` drain loop of `processQueue`,
abstracted over the per-item processing `handler` (the dispatch to
`handleAudioMessage` / `handleTextMessage` plus that item's environment).
`arrivals` lists, per dequeued item, the batch of items `POST /webhook`
pushes while that item is being awaited; the batch joins the tail of the
queue before the loop re-checks `messageQueue.length`.  An item's thrown
failure is caught by the loop's `try/catch` and recorded in its outcome.
`fuel` bounds the iteration count; one queue element is consumed per
iteration, so `drainFuel` (all items ever enqueued) makes it exact. -/
def drain (handler : QueueItem → Except JsError Unit) :
    Nat → List QueueItem → List (List QueueItem) →
    List (QueueItem × Except JsError Unit)
  | 0, _, _ => []
  | _ + 1, [], _ => []
  | fuel + 1, m :: rest, arrivals =>
    (m, handler m) :: drain handler fuel (rest ++ arrivals.headD []) arrivals.tail

/-- Total number of items the drain loop will see: the initial queue plus
every batch that arrives during processing. -/
def drainFuel (q : List QueueItem) (arrivals : List (List QueueItem)) : Nat :=
  q.length + (arrivals.map List.length).sum

/-- The module-level queue state of routes/webhook.js:
`messageQueue` and the `processing` flag. -/
structure QState where
  queue : List QueueItem
  processing : Bool
  deriving DecidableEq

/-- `processQueue()`: returns immediately when a drain is already running
or the queue is empty; otherwise sets `processing`, drains every item
(including ones arriving meanwhile) and resets the flag.  The returned
list is the processed items in order, each with its caught outcome. -/
def processQueue (handler : QueueItem → Except JsError Unit) (s : QState)
    (arrivals : List (List QueueItem)) :
    QState × List (QueueItem × Except JsError Unit) :=
  if s.processing || s.queue.isEmpty then (s, [])
  else (⟨[], false⟩, drain handler (drainFuel s.queue arrivals) s.queue arrivals)

/-- The `console.error` entries of the drain loop's catch: sender name,
sender phone and the error, one per failed item. -/
def drainLogs (run : List (QueueItem × Except JsError Unit)) :
    List (String × String × JsError) :=
  run.filterMap fun p =>
    match p.2 with
    | .error e => some (p.1.senderName, p.1.senderPhone, e)
    | .ok _ => none

/-- Batches only arrive while an item is in flight: the i-th batch needs
an i-th dequeued item to exist, i.e. the items enqueued before it
(initial queue plus earlier batches) number more than i. -/
def arrivalsWF (q : List QueueItem) (arrivals : List (List QueueItem)) : Prop :=
  ∀ i, i < arrivals.length → i < q.length + ((arrivals.take i).flatten).length

instance (q : List QueueItem) (arrivals : List (List QueueItem)) :
    Decidable (arrivalsWF q arrivals) := by
  unfold arrivalsWF; infer_instance

/-! ### Persistence store (services/storage.js) and the settings route -/

/-- One row of the `transcriptions` table. -/
structure StoreRecord where
  id : Nat
  data : SavedRecord
  deriving DecidableEq

/-- The in-memory sql.js database state the pipeline touches:
transcription rows (insertion order), the AUTOINCREMENT counter, and the
settings key-value table. -/
structure StoreState where
  records : List StoreRecord
  nextId : Nat
  settings : List (String × String)
  deriving DecidableEq

/-- The store together with the on-disk file: `persist()` exports the
whole database and overwrites the file, so the disk holds either nothing
yet or one complete snapshot. -/
structure Store where
  mem : StoreState
  disk : Option StoreState
  deriving DecidableEq

/-- `persist()`: synchronous full-state snapshot to disk. -/
def persist (s : Store) : Store :=
  ⟨s.mem, some s.mem⟩

/-- `saveTranscription(...)`: INSERT with the next AUTOINCREMENT id, then
`persist()`; returns the assigned id. -/
def saveTranscription (d : SavedRecord) (s : Store) : Store × Nat :=
  let id := s.mem.nextId
  let mem' : StoreState :=
    { records := s.mem.records ++ [⟨id, d⟩]
      nextId := id + 1
      settings := s.mem.settings }
  (persist ⟨mem', s.disk⟩, id)

/-- `getTranscription(id)`: SELECT by id. -/
def getTranscription (st : StoreState) (id : Nat) : Option StoreRecord :=
  st.records.find? fun r => r.id == id

/-- `updateTranscription(id, text)`: returns `false` untouched when the id
is absent; otherwise UPDATEs the text column and `persist()`s. -/
def updateTranscription (id : Nat) (text : String) (s : Store) : Store × Bool :=
  if (s.mem.records.filter fun r => r.id == id).length = 0 then (s, false)
  else
    let mem' : StoreState :=
      { s.mem with
        records := s.mem.records.map fun r =>
          if r.id == id then ⟨r.id, { r.data with transcription := text }⟩ else r }
    (persist ⟨mem', s.disk⟩, true)

/-- `deleteTranscription(id)`: DELETE + `persist()` when the row exists,
returning whether it existed. -/
def deleteTranscription (id : Nat) (s : Store) : Store × Bool :=
  if (s.mem.records.filter fun r => r.id == id).length > 0 then
    (persist ⟨{ s.mem with records := s.mem.records.filter fun r => r.id != id },
              s.disk⟩, true)
  else (s, false)

/-- `deleteAllTranscriptions()`: DELETE all rows + `persist()`. -/
def deleteAllTranscriptions (s : Store) : Store :=
  persist ⟨{ s.mem with records := [] }, s.disk⟩

/-- INSERT OR REPLACE on the settings table. -/
def upsertSetting (k v : String) : List (String × String) → List (String × String)
  | [] => [(k, v)]
  | (k', v') :: rest =>
    if k' = k then (k, v) :: rest else (k', v') :: upsertSetting k v rest

/-- `setSetting(key, value)`: INSERT OR REPLACE + `persist()`. -/
def setSetting (k v : String) (s : Store) : Store :=
  persist ⟨{ s.mem with settings := upsertSetting k v s.mem.settings }, s.disk⟩

/-- `getSetting(key)`. -/
def getSetting (st : StoreState) (k : String) : Option String :=
  (st.settings.find? fun p => p.1 == k).map Prod.snd

/-- The allow-list of `PATCH /api/settings` in routes/api.js. -/
def allowedSettings : List String := ["auto_reply", "default_language"]

/-- The body of `PATCH /api/settings`: for each entry of the request body
in order, apply `setSetting` only when the key is allow-listed; every
other key is skipped silently. -/
def patchSettings (body : List (String × String)) (s : Store) : Store :=
  body.foldl (fun st kv => if allowedSettings.contains kv.1 then setSetting kv.1 kv.2 st else st) s

/-! ### Derived classifications and concrete fixtures -/

/-- The attempt outcomes whose thrown message always matches the
`isRetryable` substring check: HTTP 429/500/502/503 (their status digits
appear in the message) and transport failures (`fetch failed`). -/
def retryableOutcome : ApiOutcome → Bool
  | .ok _ => false
  | .httpError s _ => s == 429 || s == 500 || s == 502 || s == 503
  | .fetchFailed => true

/-- Message of the error a failing attempt throws (unused for successes). -/
def failMsgOf : ApiOutcome → String
  | .ok _ => ""
  | .httpError s b => mkFailMsg s b
  | .fetchFailed => "fetch failed"

/-- API that always answers HTTP 500 with body `boom`. -/
def api500 : Nat → ApiOutcome := fun _ => .httpError 500 "boom"

/-- API that always answers HTTP 504 with an empty body. -/
def api504 : Nat → ApiOutcome := fun _ => .httpError 504 ""

/-- API that always answers HTTP 404 with body `Not Found`. -/
def api404 : Nat → ApiOutcome := fun _ => .httpError 404 "Not Found"

/-- API that always answers HTTP 400 with a body whose text contains `429`. -/
def api400retry : Nat → ApiOutcome := fun _ => .httpError 400 "429"

/-- API that always succeeds, with no duration in the response body. -/
def apiOkNoDur : Nat → ApiOutcome := fun _ => .ok ⟨"szia", some "hu", none, none⟩

/-- API that always succeeds with duration 4. -/
def apiOkDur : Nat → ApiOutcome := fun _ => .ok ⟨"hello", some "en", some 4, none⟩

/-- A handler environment: downloads give a 100-byte buffer, the API
always 500s, auto-reply off, default language `auto`, no forwards. -/
def baseEnv : HandlerEnv :=
  { download := fun _ => some 100
    api := api500
    getSetting := fun k =>
      if k = "auto_reply" then some "false"
      else if k = "default_language" then some "auto" else none
    forwardNumbers := none
    noticeOk := true
    replyOk := true
    templateOk := fun _ => true
    plainOk := fun _ => true }

/-- First download fails, the retry succeeds with 10 bytes; the API 500s. -/
def retryFailEnv : HandlerEnv :=
  { baseEnv with download := fun n => if n = 1 then none else some 10 }

/-- Both download attempts fail. -/
def dlFailEnv : HandlerEnv :=
  { baseEnv with download := fun _ => none }

/-- Download succeeds with a buffer one byte over the 25 MiB limit. -/
def tooLargeEnv : HandlerEnv :=
  { baseEnv with download := fun _ => some (MAX_FILE_SIZE + 1) }

/-- Download succeeds; transcription succeeds without a duration. -/
def zeroDurEnv : HandlerEnv :=
  { baseEnv with api := apiOkNoDur }

/-- Download succeeds with 50 bytes; transcription succeeds with duration 4. -/
def okDurEnv : HandlerEnv :=
  { baseEnv with download := fun _ => some 50, api := apiOkDur }

/-- A sample audio message with metadata duration 3. -/
def sampleMsg : AudioMessage := ⟨"mediaA", some "audio/ogg", some 3⟩

/-- An audio message whose metadata duration is 0 (falsy in JavaScript). -/
def zeroDurMsg : AudioMessage := ⟨"mediaB", some "audio/ogg", some 0⟩

/-- An audio message with metadata duration 9. -/
def durMsg : AudioMessage := ⟨"mediaC", some "audio/mpeg", some 9⟩

/-- Sample queue items. -/
def itemA : QueueItem := ⟨.text "help", "111", "Anna"⟩

def itemB : QueueItem := ⟨.other, "222", "Bela"⟩

def itemC : QueueItem := ⟨.text "szia", "333", "Cili"⟩

def itemD : QueueItem := ⟨.other, "444", "Dora"⟩

/-- Per-item processing that always succeeds. -/
def okHandler : QueueItem → Except JsError Unit := fun _ => .ok ()

/-- Per-item processing that throws on the item from sender 222. -/
def failHandler : QueueItem → Except JsError Unit :=
  fun it => if it.senderPhone = "222" then .error (.err "boom") else .ok ()

/-- An initialized, persisted, empty store with the default settings. -/
def st0 : StoreState := ⟨[], 1, [("auto_reply", "true"), ("default_language", "auto")]⟩

def store0 : Store := ⟨st0, some st0⟩

/-- A sample record payload. -/
def row0 : SavedRecord := ⟨"111", "Anna", 10, "szia", "hu", some 3, "whatsapp"⟩

/-! ## Lemmas about the JavaScript string helpers -/

theorem isPrefixOf_append {n a : List Char} (b : List Char)
    (h : n.isPrefixOf a = true) : n.isPrefixOf (a ++ b) = true := by
  induction n generalizing a with
  | nil => simp [List.isPrefixOf]
  | cons c t ih =>
    cases a with
    | nil => simp [List.isPrefixOf] at h
    | cons d a' =>
      simp only [List.isPrefixOf, List.cons_append, Bool.and_eq_true] at h ⊢
      exact ⟨h.1, ih h.2⟩

theorem charsContains_nil_needle (l : List Char) : charsContains l [] = true := by
  cases l <;> simp [charsContains, List.isPrefixOf]

theorem charsContains_append_left {a : List Char} (b n : List Char)
    (h : charsContains a n = true) : charsContains (a ++ b) n = true := by
  induction a with
  | nil =>
    simp [charsContains, List.isEmpty_iff] at h
    subst h
    exact charsContains_nil_needle b
  | cons c t ih =>
    simp only [charsContains, Bool.or_eq_true, List.cons_append] at h ⊢
    rcases h with h | h
    · exact Or.inl (isPrefixOf_append b h)
    · exact Or.inr (ih h)

theorem strContains_append_left (a b n : String)
    (h : strContains a n = true) : strContains (a ++ b) n = true := by
  unfold strContains at h ⊢
  have hd : (a ++ b).toList = a.toList ++ b.toList := by
    simp [String.toList, String.data_append]
  rw [hd]
  exact charsContains_append_left _ _ h

/-! ## Lemmas about the Whisper retry classification -/

theorem isRetryable_append_left (pre b : String) (h : isRetryable pre = true) :
    isRetryable (pre ++ b) = true := by
  simp only [isRetryable, Bool.or_eq_true] at h ⊢
  rcases h with ((((h | h) | h) | h) | h) <;>
    simp [strContains_append_left pre b _ h]

theorem attemptResult_retryable (o : ApiOutcome) (h : retryableOutcome o = true) :
    attemptResult o = .error (failMsgOf o) ∧ isRetryable (failMsgOf o) = true := by
  cases o with
  | ok r => simp [retryableOutcome] at h
  | fetchFailed => exact ⟨rfl, by decide⟩
  | httpError s b =>
    refine ⟨rfl, ?_⟩
    simp only [retryableOutcome, Bool.or_eq_true, beq_iff_eq] at h
    simp only [failMsgOf]
    rcases h with ((h | h) | h) | h <;> subst h <;>
      rw [mkFailMsg, if_neg (by decide)] <;>
      exact isRetryable_append_left _ _ (by decide)

theorem transcribeLoop_ok_step (api : Nat → ApiOutcome) (req : ApiRequest)
    (maxRetries : Int) (attempt fuel : Nat) (lastErr : Option String) (raw : ApiResult)
    (h : attemptResult (api attempt) = .ok raw) :
    transcribeLoop api req maxRetries attempt (fuel + 1) lastErr =
      ⟨[req], [], .success (normalize raw)⟩ := by
  rw [transcribeLoop, h]

theorem transcribeLoop_error_step (api : Nat → ApiOutcome) (req : ApiRequest)
    (maxRetries : Int) (attempt fuel : Nat) (lastErr : Option String) (msg : String)
    (h : attemptResult (api attempt) = .error msg) :
    transcribeLoop api req maxRetries attempt (fuel + 1) lastErr =
      (if (attempt : Int) < maxRetries && isRetryable msg then
        ⟨req :: (transcribeLoop api req maxRetries (attempt + 1) fuel (some msg)).requests,
         2 ^ attempt * 1000 ::
           (transcribeLoop api req maxRetries (attempt + 1) fuel (some msg)).sleeps,
         (transcribeLoop api req maxRetries (attempt + 1) fuel (some msg)).outcome⟩
      else ⟨[req], [], .throwErr msg⟩) := by
  rw [transcribeLoop, h]

/-- Under an all-retryable API, the loop consumes all its fuel, sleeping
`2^attempt * 1000` ms after every attempt but the last, and ends by
throwing the last attempt's error. -/
theorem transcribeLoop_all_retryable (api : Nat → ApiOutcome) (req : ApiRequest)
    (maxR : Nat) (hr : ∀ i, 1 ≤ i → i ≤ maxR → retryableOutcome (api i) = true) :
    ∀ fuel attempt lastErr, 1 ≤ attempt → attempt ≤ maxR → attempt + fuel = maxR + 1 →
      transcribeLoop api req (maxR : Int) attempt fuel lastErr =
        ⟨List.replicate fuel req,
         (List.range' attempt (fuel - 1)).map (fun a => 2 ^ a * 1000),
         .throwErr (failMsgOf (api maxR))⟩ := by
  intro fuel
  induction fuel with
  | zero => intro attempt lastErr h1 h2 h3; omega
  | succ n ih =>
    intro attempt lastErr h1 h2 h3
    obtain ⟨herr, hret⟩ := attemptResult_retryable (api attempt) (hr attempt h1 h2)
    rw [transcribeLoop_error_step api req _ attempt n lastErr _ herr]
    rcases Nat.eq_zero_or_pos n with hn | hn
    · subst hn
      have hend : attempt = maxR := by omega
      subst hend
      rw [if_neg (by simp)]
      simp
    · obtain ⟨m, rfl⟩ : ∃ m, n = m + 1 := ⟨n - 1, by omega⟩
      have hlt : attempt < maxR := by omega
      rw [if_pos (by simp only [hret, Bool.and_true, decide_eq_true_eq]; exact_mod_cast hlt)]
      rw [ih (attempt + 1) (some (failMsgOf (api attempt))) (by omega) (by omega) (by omega)]
      simp [List.range'_succ, List.replicate_succ]

theorem transcribeLoop_success_duration (api : Nat → ApiOutcome) (req : ApiRequest)
    (maxR : Int) :
    ∀ fuel attempt lastErr r,
      (transcribeLoop api req maxR attempt fuel lastErr).outcome = .success r →
      r.duration ≠ some 0 := by
  intro fuel
  induction fuel with
  | zero =>
    intro attempt lastErr r h
    cases lastErr <;> simp [transcribeLoop] at h
  | succ n ih =>
    intro attempt lastErr r h
    cases ha : attemptResult (api attempt) with
    | ok raw =>
      rw [transcribeLoop_ok_step api req maxR attempt n lastErr raw ha] at h
      simp only [TOutcome.success.injEq] at h
      subst h
      simp only [normalize]
      cases hd : raw.duration with
      | none => simp [durTruthy]
      | some d =>
        by_cases h0 : d = 0
        · subst h0; simp [durTruthy]
        · simp only [durTruthy, hd]
          rw [if_pos (by simp [h0])]
          simp [h0]
    | error msg =>
      rw [transcribeLoop_error_step api req maxR attempt n lastErr msg ha] at h
      split at h
      · exact ih (attempt + 1) (some msg) r h
      · simp at h

/-! ## C2, C5, C10: Whisper retry policy -/

/-- C2 counterexample: an HTTP 504 (a 5xx server failure) with an empty
body is not retried at all — `transcribeAudio` makes exactly one attempt,
sleeps never, and throws immediately, although the claim requires a
2-second wait and two further attempts (`maxRetries = 3`, attempts
remaining). -/
theorem transcribe_5xx_counterexample :
    (transcribeAudio 100 "audio/ogg" none 3 api504).requests.length = 1 ∧
    (transcribeAudio 100 "audio/ogg" none 3 api504).sleeps = [] ∧
    (transcribeAudio 100 "audio/ogg" none 3 api504).outcome =
      .throwErr (mkFailMsg 504 "") := by
  decide

/-- C2 (amended): for every failure the source classifies as retryable —
HTTP 429, 500, 502 or 503, or a transport-level fetch failure —
`transcribeAudio` with `maxRetries = maxR ≥ 1` under a permanently failing
API makes exactly `maxR` attempts, waits `2^attempt` seconds (2 s, 4 s,
8 s, … ms-exact) after each attempt except the last, and fails with the
last observed error. -/
theorem transcribe_retry_backoff (api : Nat → ApiOutcome) (len : Nat) (mime : String)
    (lang : Option String) (maxR : Nat) (hlen : len ≤ MAX_FILE_SIZE) (h1 : 1 ≤ maxR)
    (hr : ∀ i, 1 ≤ i → i ≤ maxR → retryableOutcome (api i) = true) :
    (transcribeAudio len mime lang (maxR : Int) api).requests.length = maxR ∧
    (transcribeAudio len mime lang (maxR : Int) api).sleeps =
      (List.range' 1 (maxR - 1)).map (fun a => 2 ^ a * 1000) ∧
    (transcribeAudio len mime lang (maxR : Int) api).outcome =
      .throwErr (failMsgOf (api maxR)) := by
  have hn : ¬ (len > MAX_FILE_SIZE) := by omega
  have hfuel : ((maxR : Int)).toNat = maxR := by omega
  simp only [transcribeAudio, hfuel]
  rw [if_neg hn]
  rw [transcribeLoop_all_retryable api _ maxR hr maxR 1 none (by omega) h1 (by omega)]
  simp

/-- C2 witness: the always-500 API with `maxRetries = 3` gives exactly 3
attempts, sleeps of 2000 ms and 4000 ms, and the final 500 error. -/
theorem transcribe_retry_backoff_witness :
    (∀ i, 1 ≤ i → i ≤ 3 → retryableOutcome (api500 i) = true) ∧
    (transcribeAudio 100 "audio/ogg" none ((3 : Nat) : Int) api500).requests.length = 3 ∧
    (transcribeAudio 100 "audio/ogg" none ((3 : Nat) : Int) api500).sleeps = [2000, 4000] ∧
    (transcribeAudio 100 "audio/ogg" none ((3 : Nat) : Int) api500).outcome =
      .throwErr (failMsgOf (api500 3)) := by
  have h := transcribe_retry_backoff api500 100 "audio/ogg" none 3
    (by decide) (by decide) (fun i _ _ => rfl)
  exact ⟨fun i _ _ => rfl, h.1, h.2.1.trans (by decide), h.2.2⟩

/-- C5 counterexample: an HTTP 400 whose body text contains `429` is
classified retryable by the substring check, so `transcribeAudio` makes 3
attempts with backoff instead of the claimed single attempt. -/
theorem transcribe_4xx_counterexample :
    (transcribeAudio 100 "audio/ogg" none 3 api400retry).requests.length = 3 ∧
    (transcribeAudio 100 "audio/ogg" none 3 api400retry).sleeps = [2000, 4000] := by
  decide

/-- C5 (amended): a 4xx response other than 429 fails after exactly one
attempt with no backoff wait, provided its thrown message
(`Whisper API error {status}: {body}`) contains none of the substrings
`429`, `500`, `502`, `503`, `fetch` — in particular whenever the body
text avoids them. -/
theorem transcribe_non_retryable_4xx (api : Nat → ApiOutcome) (len : Nat)
    (mime : String) (lang : Option String) (maxR : Int) (status : Nat) (body : String)
    (hlen : len ≤ MAX_FILE_SIZE) (hmax : 1 ≤ maxR)
    (hapi : api 1 = .httpError status body)
    (h4 : 400 ≤ status) (h5 : status < 500) (h429 : status ≠ 429)
    (hnr : isRetryable (mkFailMsg status body) = false) :
    (transcribeAudio len mime lang maxR api).requests.length = 1 ∧
    (transcribeAudio len mime lang maxR api).sleeps = [] ∧
    (transcribeAudio len mime lang maxR api).outcome =
      .throwErr (mkFailMsg status body) := by
  have hn : ¬ (len > MAX_FILE_SIZE) := by omega
  obtain ⟨f, hf⟩ : ∃ f, maxR.toNat = f + 1 := ⟨maxR.toNat - 1, by omega⟩
  have herr : attemptResult (api 1) = .error (mkFailMsg status body) := by
    rw [hapi]
    rfl
  simp only [transcribeAudio, hf]
  rw [if_neg hn]
  rw [transcribeLoop_error_step api _ maxR 1 f none _ herr, if_neg (by simp [hnr])]
  simp

/-- C5 witness: a plain 404 is attempted exactly once. -/
theorem transcribe_non_retryable_4xx_witness :
    isRetryable (mkFailMsg 404 "Not Found") = false ∧
    (transcribeAudio 100 "audio/ogg" none 3 api404).requests.length = 1 ∧
    (transcribeAudio 100 "audio/ogg" none 3 api404).sleeps = [] ∧
    (transcribeAudio 100 "audio/ogg" none 3 api404).outcome =
      .throwErr (mkFailMsg 404 "Not Found") := by
  have h := transcribe_non_retryable_4xx api404 100 "audio/ogg" none 3 404 "Not Found"
    (by decide) (by decide) rfl (by decide) (by decide) (by decide) (by decide)
  exact ⟨by decide, h⟩

/-- C10: within the size limit, a non-positive `maxRetries` makes the
loop body never run, so no API attempt happens and the function throws
the still-`null` `lastError` — the literal `null`, not an `Error`. -/
theorem transcribe_nonpositive_max_retries (len : Nat) (mime : String)
    (lang : Option String) (maxR : Int) (api : Nat → ApiOutcome)
    (hlen : len ≤ MAX_FILE_SIZE) (hmax : maxR ≤ 0) :
    transcribeAudio len mime lang maxR api = ⟨[], [], .throwNull⟩ := by
  have hn : ¬ (len > MAX_FILE_SIZE) := by omega
  have h0 : maxR.toNat = 0 := by omega
  simp only [transcribeAudio, h0]
  rw [if_neg hn]
  rfl

/-- C10 witness: `maxRetries = 0` on an in-limit buffer. -/
theorem transcribe_nonpositive_max_retries_witness :
    transcribeAudio 100 "audio/ogg" none 0 api500 = ⟨[], [], .throwNull⟩ :=
  transcribe_nonpositive_max_retries 100 "audio/ogg" none 0 api500
    (by decide) (by decide)

/-! ## Lemmas about the audio handler's event traces -/

theorem filter_sleeps (p : HEvent → Bool) (hp : ∀ ms, p (.sleepMs ms) = false)
    (l : List Nat) : (l.map HEvent.sleepMs).filter p = [] := by
  induction l with
  | nil => rfl
  | cons a t ih => simp [List.filter_cons, hp, ih]

theorem filterMap_sleeps (f : HEvent → Option SavedRecord)
    (hf : ∀ ms, f (.sleepMs ms) = none) (l : List Nat) :
    (l.map HEvent.sleepMs).filterMap f = [] := by
  induction l with
  | nil => rfl
  | cons a t ih => simp [List.filterMap_cons, hf, ih]

theorem filter_forward (p : HEvent → Bool)
    (hp1 : ∀ d ok, p (.templateAttempt d ok) = false)
    (hp2 : ∀ d ok, p (.plainAttempt d ok) = false)
    (env : HandlerEnv) (sp : String) (ns : List String) :
    (forwardEvents env sp ns).filter p = [] := by
  induction ns with
  | nil => rfl
  | cons n rest ih =>
    simp only [forwardEvents, List.filter_append, ih, List.append_nil]
    split_ifs <;> simp [List.filter_cons, hp1, hp2]

theorem filterMap_forward (f : HEvent → Option SavedRecord)
    (hf1 : ∀ d ok, f (.templateAttempt d ok) = none)
    (hf2 : ∀ d ok, f (.plainAttempt d ok) = none)
    (env : HandlerEnv) (sp : String) (ns : List String) :
    (forwardEvents env sp ns).filterMap f = [] := by
  induction ns with
  | nil => rfl
  | cons n rest ih =>
    simp only [forwardEvents, List.filterMap_append, ih, List.append_nil]
    split_ifs <;> simp [List.filterMap_cons, hf1, hf2]

/-- The size-guard branch of the handler: a buffer over the limit sends
the best-effort too-large notice and returns. -/
theorem afterDownload_tooLarge (env : HandlerEnv) (msg : AudioMessage)
    (sp sn : String) (ts : Nat) (pre : List HEvent) (buf : Nat)
    (h : buf > MAX_FILE_SIZE) :
    afterDownload env msg sp sn ts pre buf =
      (pre ++ [.tooLargeNotice env.noticeOk], .ok ()) := by
  rw [afterDownload, if_pos h]

/-- A transcription failure propagates out of the handler; no record event
is produced. -/
theorem afterDownload_throwErr (env : HandlerEnv) (msg : AudioMessage)
    (sp sn : String) (ts : Nat) (pre : List HEvent) (buf : Nat) (m : String)
    (hbuf : ¬ buf > MAX_FILE_SIZE)
    (h : (handlerTranscribe env msg buf).outcome = .throwErr m) :
    afterDownload env msg sp sn ts pre buf =
      (pre ++ [.transcribeCall] ++ (handlerTranscribe env msg buf).sleeps.map .sleepMs,
       .error (.err m)) := by
  rw [afterDownload, if_neg hbuf]
  simp only [h]

/-- Event statistics of the post-download stage on a successful
transcription: exactly one record event is appended, and no download
attempt, download-failure notice or too-large notice is added. -/
theorem afterDownload_success (env : HandlerEnv) (msg : AudioMessage)
    (sp sn : String) (ts : Nat) (pre : List HEvent) (buf : Nat) (r : TranscribeResult)
    (hbuf : ¬ buf > MAX_FILE_SIZE)
    (h : (handlerTranscribe env msg buf).outcome = .success r) :
    savedRecords (afterDownload env msg sp sn ts pre buf).1 =
      savedRecords pre ++ [savedRowOf msg sp sn ts r] ∧
    downloadAttempts (afterDownload env msg sp sn ts pre buf).1 = downloadAttempts pre ∧
    downloadFailNotices (afterDownload env msg sp sn ts pre buf).1 =
      downloadFailNotices pre ∧
    tooLargeNotices (afterDownload env msg sp sn ts pre buf).1 = tooLargeNotices pre := by
  rw [afterDownload, if_neg hbuf]
  simp only [h]
  have hslF := filterMap_sleeps savedRecordOf (fun _ => rfl)
    (handlerTranscribe env msg buf).sleeps
  have hfwF := filterMap_forward savedRecordOf (fun _ _ => rfl) (fun _ _ => rfl)
    env sp (forwardNumbersList env.forwardNumbers)
  have hslA := filter_sleeps isDownloadAttempt (fun _ => rfl)
    (handlerTranscribe env msg buf).sleeps
  have hfwA := filter_forward isDownloadAttempt (fun _ _ => rfl) (fun _ _ => rfl)
    env sp (forwardNumbersList env.forwardNumbers)
  have hslN := filter_sleeps isDownloadFailNotice (fun _ => rfl)
    (handlerTranscribe env msg buf).sleeps
  have hfwN := filter_forward isDownloadFailNotice (fun _ _ => rfl) (fun _ _ => rfl)
    env sp (forwardNumbersList env.forwardNumbers)
  have hslT := filter_sleeps isTooLargeNotice (fun _ => rfl)
    (handlerTranscribe env msg buf).sleeps
  have hfwT := filter_forward isTooLargeNotice (fun _ _ => rfl) (fun _ _ => rfl)
    env sp (forwardNumbersList env.forwardNumbers)
  split_ifs <;>
    simp [savedRecords, downloadAttempts, downloadFailNotices, tooLargeNotices,
      List.filterMap_append, List.filter_append, List.filterMap_cons, List.filter_cons,
      hslF, hfwF, hslA, hfwA, hslN, hfwN, hslT, hfwT,
      savedRecordOf, isDownloadAttempt, isDownloadFailNotice, isTooLargeNotice]

/-- The post-download stage never adds download attempts or
download-failure notices, and keeps the step-1 events as a prefix. -/
theorem afterDownload_prefix (env : HandlerEnv) (msg : AudioMessage)
    (sp sn : String) (ts : Nat) (pre : List HEvent) (buf : Nat) :
    downloadAttempts (afterDownload env msg sp sn ts pre buf).1 = downloadAttempts pre ∧
    downloadFailNotices (afterDownload env msg sp sn ts pre buf).1 =
      downloadFailNotices pre ∧
    (afterDownload env msg sp sn ts pre buf).1.take pre.length = pre := by
  have hslA := filter_sleeps isDownloadAttempt (fun _ => rfl)
    (handlerTranscribe env msg buf).sleeps
  have hfwA := filter_forward isDownloadAttempt (fun _ _ => rfl) (fun _ _ => rfl)
    env sp (forwardNumbersList env.forwardNumbers)
  have hslN := filter_sleeps isDownloadFailNotice (fun _ => rfl)
    (handlerTranscribe env msg buf).sleeps
  have hfwN := filter_forward isDownloadFailNotice (fun _ _ => rfl) (fun _ _ => rfl)
    env sp (forwardNumbersList env.forwardNumbers)
  rw [afterDownload]
  by_cases hbuf : buf > MAX_FILE_SIZE
  · rw [if_pos hbuf]
    simp [downloadAttempts, downloadFailNotices, List.filter_append, List.filter_cons,
      isDownloadAttempt, isDownloadFailNotice, List.take_left' rfl]
  · rw [if_neg hbuf]
    cases ho : (handlerTranscribe env msg buf).outcome with
    | success r =>
      simp only [ho]
      split_ifs <;>
        simp [downloadAttempts, downloadFailNotices, List.filter_append, List.filter_cons,
          isDownloadAttempt, isDownloadFailNotice, hslA, hfwA, hslN, hfwN,
          List.append_assoc, List.take_left' rfl]
    | throwErr m =>
      simp only [ho]
      simp [downloadAttempts, downloadFailNotices, List.filter_append, List.filter_cons,
        isDownloadAttempt, isDownloadFailNotice, hslA, hfwA, hslN, hfwN,
        List.append_assoc, List.take_left' rfl]
    | throwNull =>
      simp only [ho]
      simp [downloadAttempts, downloadFailNotices, List.filter_append, List.filter_cons,
        isDownloadAttempt, isDownloadFailNotice, hslA, hfwA, hslN, hfwN,
        List.append_assoc, List.take_left' rfl]

/-! ## C3, C4, C9: the audio handling procedure -/

/-- C4: whenever the downloaded buffer exceeds 25 MiB (on either download
path), exactly one too-large notice is sent, the Whisper client is never
invoked, no record is persisted, and the handler returns normally. -/
theorem size_guard_no_transcription (env : HandlerEnv) (msg : AudioMessage)
    (sp sn : String) (ts : Nat) (len : Nat)
    (hb : obtainedBuffer env = some len) (hlen : len > MAX_FILE_SIZE) :
    tooLargeNotices (handleAudioMessage env msg sp sn ts).1 = 1 ∧
    transcribeCalls (handleAudioMessage env msg sp sn ts).1 = 0 ∧
    savedRecords (handleAudioMessage env msg sp sn ts).1 = [] ∧
    (handleAudioMessage env msg sp sn ts).2 = .ok () := by
  cases hd1 : env.download 1 with
  | some buf =>
    simp only [obtainedBuffer, hd1, Option.some.injEq] at hb
    subst hb
    have hmain : handleAudioMessage env msg sp sn ts =
        afterDownload env msg sp sn ts [.downloadAttempt 1 true] buf := by
      simp only [handleAudioMessage, hd1]
    rw [hmain, afterDownload_tooLarge env msg sp sn ts _ _ hlen]
    simp [tooLargeNotices, transcribeCalls, savedRecords, List.filter_cons,
      List.filterMap_cons, isTooLargeNotice, isTranscribeCall, savedRecordOf]
  | none =>
    simp only [obtainedBuffer, hd1] at hb
    have hmain : handleAudioMessage env msg sp sn ts =
        afterDownload env msg sp sn ts
          [.downloadAttempt 1 false, .sleepMs 2000, .downloadAttempt 2 true] len := by
      simp only [handleAudioMessage, hd1, hb]
    rw [hmain, afterDownload_tooLarge env msg sp sn ts _ _ hlen]
    simp [tooLargeNotices, transcribeCalls, savedRecords, List.filter_cons,
      List.filterMap_cons, isTooLargeNotice, isTranscribeCall, savedRecordOf]

/-- C4 witness: a 25 MiB + 1 buffer aborts before transcription. -/
theorem size_guard_no_transcription_witness :
    tooLargeNotices (handleAudioMessage tooLargeEnv sampleMsg "111" "Anna" 0).1 = 1 ∧
    transcribeCalls (handleAudioMessage tooLargeEnv sampleMsg "111" "Anna" 0).1 = 0 ∧
    savedRecords (handleAudioMessage tooLargeEnv sampleMsg "111" "Anna" 0).1 = [] ∧
    (handleAudioMessage tooLargeEnv sampleMsg "111" "Anna" 0).2 = .ok () :=
  size_guard_no_transcription tooLargeEnv sampleMsg "111" "Anna" 0
    (MAX_FILE_SIZE + 1) (by decide) (by decide)

/-- C3 counterexample: the first download fails and the retry succeeds,
but the subsequent transcription fails permanently (HTTP 500 × 3), so
zero records are persisted — against the claim's "if the retry succeeds,
exactly one record is persisted". -/
theorem download_retry_counterexample :
    retryFailEnv.download 1 = none ∧ retryFailEnv.download 2 = some 10 ∧
    savedRecords (handleAudioMessage retryFailEnv sampleMsg "111" "Anna" 0).1 = [] := by
  decide

/-- C3 (amended): when the first download fails the handler sleeps
2000 ms and retries exactly once (two download attempts in total); if the
retry also fails, the trace is exactly one failure notice (whatever the
notice send's own outcome), the handler returns normally and nothing is
persisted; if the retry succeeds no failure notice is sent, and if
additionally the size check passes and transcription succeeds, exactly
one record is persisted. -/
theorem download_retry_policy (env : HandlerEnv) (msg : AudioMessage)
    (sp sn : String) (ts : Nat) (hd1 : env.download 1 = none) :
    (downloadAttempts (handleAudioMessage env msg sp sn ts).1 = 2 ∧
      (handleAudioMessage env msg sp sn ts).1.take 3 =
        [.downloadAttempt 1 false, .sleepMs 2000,
         .downloadAttempt 2 (env.download 2).isSome]) ∧
    (env.download 2 = none →
      handleAudioMessage env msg sp sn ts =
        ([.downloadAttempt 1 false, .sleepMs 2000, .downloadAttempt 2 false,
          .downloadFailNotice env.noticeOk], .ok ()) ∧
      downloadFailNotices (handleAudioMessage env msg sp sn ts).1 = 1 ∧
      savedRecords (handleAudioMessage env msg sp sn ts).1 = []) ∧
    (∀ len, env.download 2 = some len →
      downloadFailNotices (handleAudioMessage env msg sp sn ts).1 = 0 ∧
      (¬ len > MAX_FILE_SIZE → ∀ r,
        (handlerTranscribe env msg len).outcome = .success r →
        savedRecords (handleAudioMessage env msg sp sn ts).1 =
          [savedRowOf msg sp sn ts r])) := by
  cases hd2 : env.download 2 with
  | none =>
    have hmain : handleAudioMessage env msg sp sn ts =
        ([.downloadAttempt 1 false, .sleepMs 2000, .downloadAttempt 2 false,
          .downloadFailNotice env.noticeOk], .ok ()) := by
      simp only [handleAudioMessage, hd1, hd2]
    refine ⟨⟨?_, ?_⟩, fun _ => ⟨hmain, ?_, ?_⟩,
      fun len hlen => absurd hlen (by simp)⟩
    · rw [hmain]
      simp [downloadAttempts, List.filter_cons, isDownloadAttempt]
    · rw [hmain]
      simp
    · rw [hmain]
      simp [downloadFailNotices, List.filter_cons, isDownloadFailNotice]
    · rw [hmain]
      simp [savedRecords, List.filterMap_cons, savedRecordOf]
  | some len =>
    have hmain : handleAudioMessage env msg sp sn ts =
        afterDownload env msg sp sn ts
          [.downloadAttempt 1 false, .sleepMs 2000, .downloadAttempt 2 true] len := by
      simp only [handleAudioMessage, hd1, hd2]
    have hpre := afterDownload_prefix env msg sp sn ts
      [.downloadAttempt 1 false, .sleepMs 2000, .downloadAttempt 2 true] len
    refine ⟨⟨?_, ?_⟩,
      fun hcontra => absurd hcontra (by simp), ?_⟩
    · rw [hmain, hpre.1]
      simp [downloadAttempts, List.filter_cons, isDownloadAttempt]
    · rw [hmain]
      simpa using hpre.2.2
    · intro len' hlen'
      simp only [Option.some.injEq] at hlen'
      subst hlen'
      refine ⟨?_, ?_⟩
      · rw [hmain, hpre.2.1]
        simp [downloadFailNotices, List.filter_cons, isDownloadFailNotice]
      · intro hsz r hr
        have hsucc := afterDownload_success env msg sp sn ts
          [.downloadAttempt 1 false, .sleepMs 2000, .downloadAttempt 2 true] len r hsz hr
        rw [hmain, hsucc.1]
        simp [savedRecords, List.filterMap_cons, savedRecordOf]

/-- C3 witness: both download attempts fail — one notice, no record,
normal return. -/
theorem download_retry_policy_witness :
    dlFailEnv.download 1 = none ∧
    handleAudioMessage dlFailEnv sampleMsg "111" "Anna" 0 =
      ([.downloadAttempt 1 false, .sleepMs 2000, .downloadAttempt 2 false,
        .downloadFailNotice true], .ok ()) ∧
    savedRecords (handleAudioMessage dlFailEnv sampleMsg "111" "Anna" 0).1 = [] := by
  have h := download_retry_policy dlFailEnv sampleMsg "111" "Anna" 0 rfl
  refine ⟨rfl, ?_, (h.2.1 rfl).2.2⟩
  have h2 := (h.2.1 rfl).1
  simpa [dlFailEnv, baseEnv] using h2

/-- C9 counterexample: the API succeeds without a duration while the
message metadata carries duration 0; the claim requires the metadata
value 0 to be persisted, but JavaScript `||` treats 0 as absent and the
stored duration is `null`. -/
theorem persist_duration_counterexample :
    zeroDurMsg.duration = some 0 ∧
    (handlerTranscribe zeroDurEnv zeroDurMsg 100).outcome =
      .success ⟨"szia", "hu", none, []⟩ ∧
    (savedRecords (handleAudioMessage zeroDurEnv zeroDurMsg "111" "Anna" 5000).1).map
      SavedRecord.duration = [none] := by
  decide

/-- C9 (amended): for every successfully transcribed audio item exactly
one record is persisted, its source is `whatsapp`, and its duration is
the transcription result's duration when present, else the message
metadata duration when present and nonzero, else null.  (The client
itself normalizes a zero API duration to absent, so the result's duration
is never a present zero.) -/
theorem persist_source_duration (env : HandlerEnv) (msg : AudioMessage)
    (sp sn : String) (ts : Nat) (len : Nat) (r : TranscribeResult)
    (hb : obtainedBuffer env = some len) (hlen : ¬ len > MAX_FILE_SIZE)
    (hs : (handlerTranscribe env msg len).outcome = .success r) :
    savedRecords (handleAudioMessage env msg sp sn ts).1 =
      [savedRowOf msg sp sn ts r] ∧
    (savedRowOf msg sp sn ts r).source = "whatsapp" ∧
    (savedRowOf msg sp sn ts r).duration =
      (match r.duration with
       | some d => some d
       | none =>
         match msg.duration with
         | some d => if d = 0 then none else some d
         | none => none) := by
  have hdur : r.duration ≠ some 0 := by
    have hs' := hs
    rw [handlerTranscribe, transcribeAudio, if_neg hlen] at hs'
    exact transcribeLoop_success_duration _ _ _ _ _ _ r hs'
  refine ⟨?_, rfl, ?_⟩
  · cases hd1 : env.download 1 with
    | some buf =>
      simp only [obtainedBuffer, hd1, Option.some.injEq] at hb
      subst hb
      have hmain : handleAudioMessage env msg sp sn ts =
          afterDownload env msg sp sn ts [.downloadAttempt 1 true] buf := by
        simp only [handleAudioMessage, hd1]
      have hsucc := afterDownload_success env msg sp sn ts
        [.downloadAttempt 1 true] buf r hlen hs
      rw [hmain, hsucc.1]
      simp [savedRecords, List.filterMap_cons, savedRecordOf]
    | none =>
      simp only [obtainedBuffer, hd1] at hb
      have hmain : handleAudioMessage env msg sp sn ts =
          afterDownload env msg sp sn ts
            [.downloadAttempt 1 false, .sleepMs 2000, .downloadAttempt 2 true] len := by
        simp only [handleAudioMessage, hd1, hb]
      have hsucc := afterDownload_success env msg sp sn ts
        [.downloadAttempt 1 false, .sleepMs 2000, .downloadAttempt 2 true] len r hlen hs
      rw [hmain, hsucc.1]
      simp [savedRecords, List.filterMap_cons, savedRecordOf]
  · show jsDurChain r.duration msg.duration = _
    cases hrd : r.duration with
    | some d =>
      have hd0 : d ≠ 0 := fun hz => hdur (by rw [hrd, hz])
      simp [jsDurChain, durTruthy, hd0]
    | none =>
      cases msg.duration with
      | none => simp [jsDurChain, durTruthy]
      | some d =>
        by_cases hz : d = 0 <;> simp [jsDurChain, durTruthy, hz]

/-! ## Lemmas about the sequential queue -/

theorem arrivalsWF_nil {a : List (List QueueItem)} (h : arrivalsWF [] a) : a = [] := by
  cases a with
  | nil => rfl
  | cons b t =>
    have h0 := h 0 (by simp)
    simp at h0

theorem drain_map_fst (handler : QueueItem → Except JsError Unit) :
    ∀ fuel q arrivals, arrivalsWF q arrivals → drainFuel q arrivals ≤ fuel →
      (drain handler fuel q arrivals).map Prod.fst = q ++ arrivals.flatten := by
  intro fuel
  induction fuel with
  | zero =>
    intro q arrivals hwf hle
    have hq : q = [] := by
      unfold drainFuel at hle
      exact List.length_eq_zero.mp (by omega)
    subst hq
    rw [arrivalsWF_nil hwf]
    simp [drain]
  | succ n ih =>
    intro q arrivals hwf hle
    cases q with
    | nil =>
      rw [arrivalsWF_nil hwf]
      simp [drain]
    | cons m rest =>
      cases arrivals with
      | nil =>
        simp only [drain, List.headD, List.tail, List.map_cons]
        rw [ih (rest ++ []) [] (fun i hi => absurd hi (by simp))
          (by simp [drainFuel] at hle ⊢; omega)]
        simp
      | cons b t =>
        simp only [drain, List.headD, List.tail, List.map_cons]
        have hwf2 : arrivalsWF (rest ++ b) t := by
          intro i hi
          have h2 := hwf (i + 1) (by simpa using Nat.succ_lt_succ hi)
          simp only [List.take_succ_cons, List.flatten_cons, List.length_append,
            List.length_cons] at h2 ⊢
          omega
        rw [ih (rest ++ b) t hwf2
          (by simp [drainFuel, List.length_append] at hle ⊢; omega)]
        simp [List.append_assoc]

/-! ## C1, C6: sequential queue claims -/

/-- C1: a `processQueue` call while a drain is running is a no-op, and a
drain started on an idle queue processes every item — including items
arriving in batches while earlier items are in flight — exactly once, in
enqueue (FIFO) order.  `arrivalsWF` states that each batch arrives while
some item is in flight. -/
theorem queue_fifo_single_flight :
    (∀ (handler : QueueItem → Except JsError Unit) (s : QState)
        (arrivals : List (List QueueItem)), s.processing = true →
      processQueue handler s arrivals = (s, [])) ∧
    (∀ (handler : QueueItem → Except JsError Unit) (q : List QueueItem)
        (arrivals : List (List QueueItem)), arrivalsWF q arrivals →
      (processQueue handler ⟨q, false⟩ arrivals).2.map Prod.fst =
        q ++ arrivals.flatten) := by
  constructor
  · intro handler s arrivals hp
    simp [processQueue, hp]
  · intro handler q arrivals hwf
    cases q with
    | nil =>
      rw [arrivalsWF_nil hwf]
      simp [processQueue]
    | cons m rest =>
      have hpq : processQueue handler ⟨m :: rest, false⟩ arrivals =
          (⟨[], false⟩,
           drain handler (drainFuel (m :: rest) arrivals) (m :: rest) arrivals) := by
        simp [processQueue]
      rw [hpq]
      exact drain_map_fst handler _ _ _ hwf (le_refl _)

/-- C1 witness: two queued items plus one item arriving during the first
item's processing are drained in enqueue order; a re-entrant call is a
no-op. -/
theorem queue_fifo_single_flight_witness :
    processQueue okHandler ⟨[itemA], true⟩ [] = (⟨[itemA], true⟩, []) ∧
    (processQueue okHandler ⟨[itemA, itemB], false⟩ [[itemC]]).2.map Prod.fst =
      [itemA, itemB, itemC] := by
  refine ⟨queue_fifo_single_flight.1 okHandler ⟨[itemA], true⟩ [] rfl, ?_⟩
  have h := queue_fifo_single_flight.2 okHandler [itemA, itemB] [[itemC]] (by decide)
  simpa using h

/-- C6: which items get processed, and in which order, is independent of
any item's failure (the loop's catch keeps draining); each item's
recorded outcome is the handler's result on that item alone; and every
failed item produces a log entry carrying its sender name, sender phone
and the caught error. -/
theorem queue_failure_isolation :
    (∀ (h₁ h₂ : QueueItem → Except JsError Unit) (fuel : Nat)
        (q : List QueueItem) (arrivals : List (List QueueItem)),
      (drain h₁ fuel q arrivals).map Prod.fst =
        (drain h₂ fuel q arrivals).map Prod.fst) ∧
    (∀ (handler : QueueItem → Except JsError Unit) (fuel : Nat)
        (q : List QueueItem) (arrivals : List (List QueueItem))
        (p : QueueItem × Except JsError Unit),
      p ∈ drain handler fuel q arrivals → p.2 = handler p.1) ∧
    (∀ (handler : QueueItem → Except JsError Unit) (fuel : Nat)
        (q : List QueueItem) (arrivals : List (List QueueItem))
        (it : QueueItem) (e : JsError),
      (it, Except.error e) ∈ drain handler fuel q arrivals →
      (it.senderName, it.senderPhone, e) ∈
        drainLogs (drain handler fuel q arrivals)) := by
  refine ⟨?_, ?_, ?_⟩
  · intro h₁ h₂ fuel
    induction fuel with
    | zero => intro q arrivals; simp [drain]
    | succ n ih =>
      intro q arrivals
      cases q with
      | nil => simp [drain]
      | cons m rest => simp [drain, ih]
  · intro handler fuel
    induction fuel with
    | zero => intro q arrivals p hp; simp [drain] at hp
    | succ n ih =>
      intro q arrivals p hp
      cases q with
      | nil => simp [drain] at hp
      | cons m rest =>
        simp only [drain, List.mem_cons] at hp
        rcases hp with rfl | hp
        · rfl
        · exact ih _ _ p hp
  · intro handler fuel q arrivals it e hmem
    simp only [drainLogs, List.mem_filterMap]
    exact ⟨(it, .error e), hmem, rfl⟩

/-- C6 witness: with a handler that throws on item B, the trace still
contains the item, its outcome is the handler's own result, and the log
holds B's sender context. -/
theorem queue_failure_isolation_witness :
    ((itemB, (Except.error (JsError.err "boom") : Except JsError Unit)) ∈
      drain failHandler 2 [itemA, itemB] []) ∧
    (Except.error (JsError.err "boom") : Except JsError Unit) = failHandler itemB ∧
    ("Bela", "222", JsError.err "boom") ∈
      drainLogs (drain failHandler 2 [itemA, itemB] []) := by
  have hmem : (itemB, (Except.error (JsError.err "boom") : Except JsError Unit)) ∈
      drain failHandler 2 [itemA, itemB] [] := by decide
  exact ⟨hmem,
    queue_failure_isolation.2.1 failHandler 2 [itemA, itemB] [] _ hmem,
    queue_failure_isolation.2.2 failHandler 2 [itemA, itemB] [] itemB (.err "boom") hmem⟩

/-! ## C7, C8: persistence store claims -/

/-- C7: every mutating store call ends with the on-disk file holding the
full current state (the disk snapshot equals the post-call memory state),
and a freshly saved record is invisible to readers of the pre-call state
but visible — in memory and in the snapshot — after `saveTranscription`
returns. -/
theorem store_snapshot_consistency (s : Store) (d : SavedRecord) (id : Nat)
    (text k v : String) (hsync : s.disk = some s.mem)
    (hids : ∀ r ∈ s.mem.records, r.id < s.mem.nextId) :
    ((saveTranscription d s).1.disk = some (saveTranscription d s).1.mem ∧
      getTranscription s.mem (saveTranscription d s).2 = none ∧
      getTranscription (saveTranscription d s).1.mem (saveTranscription d s).2 =
        some ⟨s.mem.nextId, d⟩) ∧
    (updateTranscription id text s).1.disk =
      some (updateTranscription id text s).1.mem ∧
    (deleteTranscription id s).1.disk = some (deleteTranscription id s).1.mem ∧
    (deleteAllTranscriptions s).disk = some (deleteAllTranscriptions s).mem ∧
    (setSetting k v s).disk = some (setSetting k v s).mem := by
  have hnone : s.mem.records.find? (fun r => r.id == s.mem.nextId) = none := by
    rw [List.find?_eq_none]
    intro r hr
    simp only [beq_iff_eq]
    exact Nat.ne_of_lt (hids r hr)
  refine ⟨⟨rfl, hnone, ?_⟩, ?_, ?_, rfl, rfl⟩
  · show ((s.mem.records ++ [(⟨s.mem.nextId, d⟩ : StoreRecord)]).find?
      fun r => r.id == s.mem.nextId) = some (⟨s.mem.nextId, d⟩ : StoreRecord)
    rw [List.find?_append, hnone, Option.none_or]
    simp [List.find?]
  · rw [updateTranscription]
    split_ifs with hcase
    · exact hsync
    · rfl
  · rw [deleteTranscription]
    split_ifs with hcase
    · rfl
    · exact hsync

/-- C7 witness: all five mutators on the initialized empty store. -/
theorem store_snapshot_consistency_witness :
    ((saveTranscription row0 store0).1.disk =
        some (saveTranscription row0 store0).1.mem ∧
      getTranscription store0.mem (saveTranscription row0 store0).2 = none ∧
      getTranscription (saveTranscription row0 store0).1.mem
        (saveTranscription row0 store0).2 = some ⟨store0.mem.nextId, row0⟩) ∧
    (updateTranscription 5 "x" store0).1.disk =
      some (updateTranscription 5 "x" store0).1.mem ∧
    (deleteTranscription 5 store0).1.disk =
      some (deleteTranscription 5 store0).1.mem ∧
    (deleteAllTranscriptions store0).disk =
      some (deleteAllTranscriptions store0).mem ∧
    (setSetting "auto_reply" "false" store0).disk =
      some (setSetting "auto_reply" "false" store0).mem :=
  store_snapshot_consistency store0 row0 5 "x" "auto_reply" "false" rfl (by decide)

/-- C8: the settings PATCH body applies only allow-listed keys — a body
of unrecognized keys leaves the store untouched, `auto_reply` mixed with
an unknown key applies only `auto_reply`, and in general the update is
the update of the allow-list-filtered body. -/
theorem settings_allow_list :
    (∀ (body : List (String × String)) (s : Store),
      (∀ kv ∈ body, allowedSettings.contains kv.1 = false) →
      patchSettings body s = s) ∧
    (∀ (v bogusKey w : String) (s : Store),
      allowedSettings.contains bogusKey = false →
      patchSettings [("auto_reply", v), (bogusKey, w)] s =
        setSetting "auto_reply" v s) ∧
    (∀ (body : List (String × String)) (s : Store),
      patchSettings body s =
        patchSettings (body.filter fun kv => allowedSettings.contains kv.1) s) := by
  refine ⟨?_, ?_, ?_⟩
  · intro body
    induction body with
    | nil => intro s _; rfl
    | cons kv rest ih =>
      intro s h
      have hkv := h kv (by simp)
      simp only [patchSettings, List.foldl_cons] at ih ⊢
      rw [hkv]
      simp only [Bool.false_eq_true, if_false]
      exact ih s fun kv' h' => h kv' (List.mem_cons_of_mem _ h')
  · intro v bogusKey w s hk
    have h1 : allowedSettings.contains "auto_reply" = true := by decide
    simp only [patchSettings, List.foldl_cons, List.foldl_nil, h1, hk]
    simp
  · intro body
    induction body with
    | nil => intro s; rfl
    | cons kv rest ih =>
      intro s
      cases hc : allowedSettings.contains kv.1 <;>
        simp only [patchSettings, List.foldl_cons, List.filter_cons, hc,
          Bool.false_eq_true, if_false, if_true] <;>
        exact ih _

/-- C8 witness: an unknown key is a no-op; `auto_reply` mixed with an
unknown key applies only `auto_reply`. -/
theorem settings_allow_list_witness :
    patchSettings [("color", "red")] store0 = store0 ∧
    patchSettings [("auto_reply", "false"), ("bogus", "1")] store0 =
      setSetting "auto_reply" "false" store0 := by
  refine ⟨settings_allow_list.1 [("color", "red")] store0 ?_,
    settings_allow_list.2.1 "false" "bogus" "1" store0 (by decide)⟩
  intro kv hkv
  rw [List.mem_singleton] at hkv
  subst hkv
  decide

/-- C9 witness: result duration 4 is persisted as-is with source
`whatsapp`. -/
theorem persist_source_duration_witness :
    savedRecords (handleAudioMessage okDurEnv durMsg "222" "Bela" 7000).1 =
      [savedRowOf durMsg "222" "Bela" 7000 ⟨"hello", "en", some 4, []⟩] ∧
    (savedRowOf durMsg "222" "Bela" 7000
      (⟨"hello", "en", some 4, []⟩ : TranscribeResult)).source = "whatsapp" ∧
    (savedRowOf durMsg "222" "Bela" 7000
      (⟨"hello", "en", some 4, []⟩ : TranscribeResult)).duration = some 4 := by
  have h := persist_source_duration okDurEnv durMsg "222" "Bela" 7000 50
    ⟨"hello", "en", some 4, []⟩ (by decide) (by decide) (by decide)
  exact ⟨h.1, h.2.1, h.2.2⟩

end VoiceScribe
